import Mathlib

/-!
Verification development for the TalentScout candidate-intake chatbot.

The Python sources are shallowly embedded: pure functions from
`core/state.py`, `core/schemas.py`, `core/answer_scorer.py`,
`core/qa_generator.py` and `app.py` become Lean functions; the
Streamlit session is an explicit state record with a per-turn
transition function; calls to the external text-generation service
(`core/nlp.py`, an HTTP boundary) are modelled by an oracle value that
ranges over every observable outcome of the call (an exception on all
retry attempts, or a returned text whose best-effort JSON parse is a
given JSON value or nothing).
-/

namespace TalentScout

/-- Trim ASCII whitespace from both ends of a character list. -/
def pyStripChars (cs : List Char) : List Char :=
  ((cs.dropWhile Char.isWhitespace).reverse.dropWhile Char.isWhitespace).reverse

/-- Python `str.strip()` (whitespace trim on both ends). -/
def pyStrip (s : String) : String := ⟨pyStripChars s.data⟩

/-- Python `str.lower()` (ASCII case folding suffices for this code base). -/
def pyLower (s : String) : String := ⟨s.data.map Char.toLower⟩

/-- Executable infix test on character lists. -/
def listInfixB (needle hay : List Char) : Bool :=
  hay.tails.any (fun t => needle.isPrefixOf t)

/-- Python `needle in hay` substring containment on strings. -/
def strContains (hay needle : String) : Bool :=
  listInfixB needle.data hay.data

/-- Python `str.isdigit()`: nonempty and all characters are digits. -/
def pyIsdigit (s : String) : Bool :=
  !s.data.isEmpty && s.data.all Char.isDigit

theorem listInfixB_iff (n h : List Char) : listInfixB n h = true ↔ n <:+: h := by
  simp only [listInfixB, List.any_eq_true, List.mem_tails,
    List.isPrefixOf_iff_prefix, List.infix_iff_prefix_suffix]
  tauto

/-- `EXIT_KEYWORDS` from `core/state.py`. -/
def EXIT_KEYWORDS : List String :=
  ["quit", "exit", "bye", "stop", "goodbye", "end", "finish", "done"]

/-- `detect_exit` from `core/state.py`: empty text is not an exit; otherwise
the trimmed, lowercased text is tested for exact membership in the keyword
set and then for any keyword occurring as a substring. -/
def detect_exit (text : String) : Bool :=
  if text = "" then false
  else
    if EXIT_KEYWORDS.contains (pyLower (pyStrip text)) then true
    else EXIT_KEYWORDS.any (fun kw => strContains (pyLower (pyStrip text)) kw)

/-- C5: `detect_exit` returns true iff the lowercased, trimmed text contains
some exit keyword as a substring; including the concrete examples from the
spec. -/
theorem detect_exit_iff_keyword_substring :
    (∀ text : String,
      detect_exit text = true ↔
        ∃ kw ∈ EXIT_KEYWORDS, kw.data <:+: (pyLower (pyStrip text)).data) ∧
    detect_exit "please exit now" = true ∧
    detect_exit "bye" = true ∧
    detect_exit "QUIT" = true ∧
    detect_exit "hello" = false := by
  refine ⟨?_, by decide, by decide, by decide, by decide⟩
  intro text
  unfold detect_exit
  by_cases h0 : text = ""
  · rw [if_pos h0]
    subst h0
    constructor
    · intro h
      exact absurd h (by decide)
    · rintro ⟨kw, hkw, hinf⟩
      have : kw.data = [] := List.eq_nil_of_infix_nil (by exact_mod_cast hinf)
      revert hkw
      cases kw
      simp_all
      decide
  · rw [if_neg h0]
    by_cases hc : EXIT_KEYWORDS.contains (pyLower (pyStrip text)) = true
    · rw [if_pos hc]
      simp only [true_iff]
      exact ⟨pyLower (pyStrip text), by simpa using hc, List.infix_refl _⟩
    · rw [if_neg hc]
      simp only [List.any_eq_true, strContains, listInfixB_iff]

/-- `AnswerScore` from `core/schemas.py` (pydantic model: integer score,
free-text reasoning, string lists). -/
structure AnswerScore where
  score : Int
  reasoning : String
  strengths : List String
  improvements : List String
deriving DecidableEq

/-- A materialized question dict as built in the `GENERATE_QA` handler of
`app.py` (`questions_data`): all four keys always present. -/
structure QDict where
  topic : String
  question : String
  difficulty : String
  question_id : String
deriving DecidableEq

/-- `Candidate` from `core/schemas.py`. Python `None` becomes `Option`;
the two id-keyed dicts become association lists (insertion ordered, unique
keys maintained by `dictInsert`). -/
structure Candidate where
  full_name : Option String := none
  email : Option String := none
  phone : Option String := none
  years_experience : Option Rat := none
  desired_positions : List String := []
  current_location : Option String := none
  tech_stack : List String := []
  consent_given : Bool := false
  technical_questions : List QDict := []
  technical_answers : List (String × String) := []
  answer_scores : List (String × AnswerScore) := []
  overall_score : Option Rat := none
  additional_comments : Option String := none
deriving DecidableEq

/-- `ConversationState` from `core/schemas.py`. -/
structure ConvState where
  step : String := "GREETING"
  exit_detected : Bool := false
  current_question_index : Nat := 0
  questions_asked : Bool := false
deriving DecidableEq

/-- `INTAKE_ORDER` from `core/state.py`. -/
def INTAKE_ORDER : List String :=
  ["INTAKE_NAME", "INTAKE_EMAIL", "INTAKE_PHONE", "INTAKE_YOE",
   "INTAKE_POSITION", "INTAKE_LOCATION", "INTAKE_TECH"]

/-- The `field_mapping` dict inside `next_step` in `core/state.py`. -/
def field_mapping : String → String
  | "INTAKE_NAME" => "full_name"
  | "INTAKE_EMAIL" => "email"
  | "INTAKE_PHONE" => "phone"
  | "INTAKE_YOE" => "years_experience"
  | "INTAKE_POSITION" => "desired_positions"
  | "INTAKE_LOCATION" => "current_location"
  | "INTAKE_TECH" => "tech_stack"
  | _ => ""

/-- The emptiness test of `next_step` for an optional string field:
`val is None or (isinstance(val, str) and not val.strip())`. -/
def strFieldEmpty : Option String → Bool
  | none => true
  | some s => pyStrip s = ""

/-- The emptiness test `val is None or (isinstance(val, list) and not val)
or (isinstance(val, str) and not val.strip())` of `next_step`, dispatched
on the field name like `getattr(candidate, field)`. -/
def getFieldEmpty (c : Candidate) : String → Bool
  | "full_name" => strFieldEmpty c.full_name
  | "email" => strFieldEmpty c.email
  | "phone" => strFieldEmpty c.phone
  | "years_experience" => c.years_experience.isNone
  | "desired_positions" => c.desired_positions.isEmpty
  | "current_location" => strFieldEmpty c.current_location
  | "tech_stack" => c.tech_stack.isEmpty
  | _ => false

/-- `next_step` from `core/state.py`: consent gate, then the scan over
`INTAKE_ORDER` returning the first step whose field is empty, else
`GENERATE_QA`.  The `state` argument is accepted and unused, as in the
source. -/
def next_step (candidate : Candidate) (_state : ConvState) : String :=
  if !candidate.consent_given then "CONSENT"
  else
    match INTAKE_ORDER.find? (fun step => getFieldEmpty candidate (field_mapping step)) with
    | some step => step
    | none => "GENERATE_QA"

/-- The C4 claim's transition rule written out directly: `CONSENT` while
consent is missing, else the step of the first unset field in the fixed
order, else `GENERATE_QA`. -/
def next_step_claim (c : Candidate) : String :=
  if !c.consent_given then "CONSENT"
  else if strFieldEmpty c.full_name then "INTAKE_NAME"
  else if strFieldEmpty c.email then "INTAKE_EMAIL"
  else if strFieldEmpty c.phone then "INTAKE_PHONE"
  else if c.years_experience.isNone then "INTAKE_YOE"
  else if c.desired_positions.isEmpty then "INTAKE_POSITION"
  else if strFieldEmpty c.current_location then "INTAKE_LOCATION"
  else if c.tech_stack.isEmpty then "INTAKE_TECH"
  else "GENERATE_QA"

/-- C4: `next_step` implements exactly the consent-gate / first-unset-field
/ `GENERATE_QA` rule of the specification. -/
theorem next_step_eq_claim (c : Candidate) (st : ConvState) :
    next_step c st = next_step_claim c := by
  have e1 : getFieldEmpty c (field_mapping "INTAKE_NAME") = strFieldEmpty c.full_name := rfl
  have e2 : getFieldEmpty c (field_mapping "INTAKE_EMAIL") = strFieldEmpty c.email := rfl
  have e3 : getFieldEmpty c (field_mapping "INTAKE_PHONE") = strFieldEmpty c.phone := rfl
  have e4 : getFieldEmpty c (field_mapping "INTAKE_YOE") = c.years_experience.isNone := rfl
  have e5 : getFieldEmpty c (field_mapping "INTAKE_POSITION") = c.desired_positions.isEmpty := rfl
  have e6 : getFieldEmpty c (field_mapping "INTAKE_LOCATION") = strFieldEmpty c.current_location := rfl
  have e7 : getFieldEmpty c (field_mapping "INTAKE_TECH") = c.tech_stack.isEmpty := rfl
  unfold next_step next_step_claim
  cases hcg : c.consent_given
  · rfl
  · simp only [Bool.not_true, Bool.false_eq_true, if_false, INTAKE_ORDER,
      List.find?_cons, e1, e2, e3, e4, e5, e6, e7]
    cases h1 : strFieldEmpty c.full_name <;>
      cases h2 : strFieldEmpty c.email <;>
        cases h3 : strFieldEmpty c.phone <;>
          cases h4 : c.years_experience.isNone <;>
            cases h5 : c.desired_positions.isEmpty <;>
              cases h6 : strFieldEmpty c.current_location <;>
                cases h7 : c.tech_stack.isEmpty <;>
                  simp only [h1, h2, h3, h4, h5, h6, h7] <;> rfl

/-- JSON values as produced by `json.loads` on a service reply.  Numbers are
modelled as integers: the scoring schema requests an integer score, and every
non-integer numeric field takes the same rejection path as any other
ill-typed field. -/
inductive JVal where
  | jnull : JVal
  | jbool : Bool → JVal
  | jint : Int → JVal
  | jstr : String → JVal
  | jarr : List JVal → JVal
  | jobj : List (String × JVal) → JVal

/-- Python `dict.get` on a JSON object (later duplicate keys win, as in
`json.loads`). -/
def jget (fs : List (String × JVal)) (k : String) : Option JVal :=
  (fs.reverse.find? (fun p => p.1 == k)).map (fun p => p.2)

/-- Observable outcome of one call to the external text-generation service
(`ollama_chat` in `core/nlp.py`) composed with best-effort JSON extraction:
either the call raised on every retry attempt, or it returned a text whose
best-effort JSON parse (`_best_effort_json` / the two `json.loads` attempts
of `_extract_json`) is the given value, or nothing parseable. -/
inductive SvcOutcome where
  | failure : SvcOutcome
  | response : Option JVal → SvcOutcome

/-- The hard-coded dict returned by `_extract_json` in
`core/answer_scorer.py` when no JSON can be recovered from the text. -/
def extract_json_fallback : JVal :=
  .jobj [("score", .jint 5),
         ("reasoning", .jstr "Unable to parse detailed scoring."),
         ("strengths", .jarr [.jstr "Answer provided"]),
         ("improvements", .jarr [.jstr "Could provide more detail"])]

/-- `_extract_json` from `core/answer_scorer.py`, on the parse outcome: the
parsed value if any parse attempt succeeded, else the fallback dict. -/
def extract_json (parsed : Option JVal) : JVal :=
  parsed.getD extract_json_fallback

/-- A JSON array of strings, as pydantic validates `List[str]`. -/
def asStrList : JVal → Option (List String)
  | .jarr xs => xs.mapM (fun v => match v with | .jstr s => some s | _ => none)
  | _ => none

/-- The `AnswerScore(...)` construction inside the `try` of `score_answer`:
`.get` defaults, `max(0, min(10, score))` clamping, pydantic field checks.
`none` models the paths where Python raises (`.get` on a non-dict,
a non-integer score under `min`/`max`, pydantic rejecting a field), which
the enclosing `except` converts into the rule-based fallback. -/
def score_from_data : JVal → Option AnswerScore
  | .jobj fs =>
    match (jget fs "score").getD (.jint 5) with
    | .jint n =>
      match (jget fs "reasoning").getD (.jstr "No detailed reasoning provided") with
      | .jstr r =>
        match asStrList ((jget fs "strengths").getD (.jarr [])),
              asStrList ((jget fs "improvements").getD (.jarr [])) with
        | some st, some im =>
            some { score := max 0 (min 10 n), reasoning := r,
                   strengths := st, improvements := im }
        | _, _ => none
      | _ => none
    | _ => none
  | _ => none

/-- `simple_score_answer` from `core/answer_scorer.py`: deterministic
rule-based fallback scoring by trimmed answer length, with a one-point
difficulty adjustment. -/
def simple_score_answer (answer : String) (_topic difficulty : String) : AnswerScore :=
  let answer_length := (pyStrip answer).length
  let base : Int × String × List String × List String :=
    if answer_length < 20 then
      (3, "Answer is too brief for a technical question", [],
        ["Provide more detailed explanation", "Include examples or use cases"])
    else if answer_length < 50 then
      (5, "Answer has basic content but lacks depth", ["Clear and concise"],
        ["Add more technical details", "Explain the reasoning behind your answer"])
    else if answer_length < 150 then
      (7, "Good comprehensive answer with adequate detail",
        ["Well-structured response", "Good level of detail"],
        ["Could include more specific examples"])
    else
      (8, "Comprehensive and detailed answer",
        ["Thorough explanation", "Good depth of knowledge"],
        ["Excellent detail level"])
  let score0 := base.1
  let score :=
    if difficulty = "easy" ∧ 6 ≤ score0 then min 10 (score0 + 1)
    else if difficulty = "hard" ∧ score0 ≤ 7 then max 1 (score0 - 1)
    else score0
  { score := score, reasoning := base.2.1,
    strengths := base.2.2.1, improvements := base.2.2.2 }

/-- `score_answer` from `core/answer_scorer.py`.  The `try` block catches
every exception (including the service call itself failing), so a service
failure or any ill-typed response degrades to `simple_score_answer`. -/
def score_answer (_question answer topic difficulty : String)
    (_experience_years : Rat) (svc : SvcOutcome) : AnswerScore :=
  match svc with
  | .failure => simple_score_answer answer topic difficulty
  | .response parsed =>
    match score_from_data (extract_json parsed) with
    | some s => s
    | none => simple_score_answer answer topic difficulty

/-- The base score step function of C7. -/
def baseScoreOfLength (n : Nat) : Int :=
  if n < 20 then 3 else if n < 50 then 5 else if n < 150 then 7 else 8

/-- The difficulty adjustment of C7. -/
def adjustForDifficulty (difficulty : String) (score : Int) : Int :=
  if difficulty = "easy" ∧ 6 ≤ score then min 10 (score + 1)
  else if difficulty = "hard" ∧ score ≤ 7 then max 1 (score - 1)
  else score

/-- The per-bucket fixed reasoning string of C7. -/
def bucketReasoning (n : Nat) : String :=
  if n < 20 then "Answer is too brief for a technical question"
  else if n < 50 then "Answer has basic content but lacks depth"
  else if n < 150 then "Good comprehensive answer with adequate detail"
  else "Comprehensive and detailed answer"

/-- The per-bucket fixed strengths list of C7. -/
def bucketStrengths (n : Nat) : List String :=
  if n < 20 then []
  else if n < 50 then ["Clear and concise"]
  else if n < 150 then ["Well-structured response", "Good level of detail"]
  else ["Thorough explanation", "Good depth of knowledge"]

/-- The per-bucket fixed improvements list of C7. -/
def bucketImprovements (n : Nat) : List String :=
  if n < 20 then ["Provide more detailed explanation", "Include examples or use cases"]
  else if n < 50 then ["Add more technical details", "Explain the reasoning behind your answer"]
  else if n < 150 then ["Could include more specific examples"]
  else ["Excellent detail level"]

/-- C7: the rule-based fallback scorer is exactly the claimed step function
of trimmed answer length with the claimed difficulty adjustment and fixed
per-bucket feedback texts. -/
theorem simple_score_answer_spec (answer topic difficulty : String) :
    simple_score_answer answer topic difficulty =
      { score := adjustForDifficulty difficulty (baseScoreOfLength (pyStrip answer).length),
        reasoning := bucketReasoning (pyStrip answer).length,
        strengths := bucketStrengths (pyStrip answer).length,
        improvements := bucketImprovements (pyStrip answer).length } := by
  simp only [simple_score_answer, adjustForDifficulty, baseScoreOfLength,
    bucketReasoning, bucketStrengths, bucketImprovements]
  split_ifs <;> rfl

/-- The fallback scorer's score is always within `[1, 9] ⊆ [0, 10]`. -/
theorem simple_score_answer_bounds (answer topic difficulty : String) :
    1 ≤ (simple_score_answer answer topic difficulty).score ∧
    (simple_score_answer answer topic difficulty).score ≤ 9 := by
  rw [simple_score_answer_spec]
  simp only [adjustForDifficulty, baseScoreOfLength]
  split_ifs <;> decide

/-- C6: for every input and every observable behaviour of the scoring
service — total failure, well-formed JSON, ill-typed JSON, or no JSON at
all — `score_answer` returns an `AnswerScore` whose score is in `[0, 10]`
(never propagating an error: it is a total function into `AnswerScore`). -/
theorem score_answer_score_in_range
    (question answer topic difficulty : String) (experience_years : Rat)
    (svc : SvcOutcome) :
    0 ≤ (score_answer question answer topic difficulty experience_years svc).score ∧
    (score_answer question answer topic difficulty experience_years svc).score ≤ 10 := by
  have hsimple := simple_score_answer_bounds answer topic difficulty
  have hclamp : ∀ (v : JVal) (s : AnswerScore),
      score_from_data v = some s → 0 ≤ s.score ∧ s.score ≤ 10 := by
    intro v s hv
    cases v <;> (try exact Option.noConfusion hv)
    unfold score_from_data at hv
    repeat' split at hv
    all_goals
      first
        | exact Option.noConfusion hv
        | (injection hv with h
           subst h
           exact ⟨le_max_left _ _, max_le (by norm_num) (min_le_left _ _)⟩)
  unfold score_answer
  cases svc with
  | failure => dsimp only; omega
  | response parsed =>
    dsimp only
    cases hd : score_from_data (extract_json parsed) with
    | none => simp only [hd]; omega
    | some s => simp only [hd]; exact hclamp _ _ hd

/-- Round half to even at integer precision, as Python's builtin `round`
does on the exact value. -/
def roundHalfEven (q : Rat) : Int :=
  if q - ⌊q⌋ < 1/2 then ⌊q⌋
  else if 1/2 < q - ⌊q⌋ then ⌊q⌋ + 1
  else if ⌊q⌋ % 2 = 0 then ⌊q⌋ else ⌊q⌋ + 1

/-- Python `round(x, 1)`. -/
def pyRound1 (q : Rat) : Rat := (roundHalfEven (q * 10) : Rat) / 10

/-- `calculate_overall_score` from `core/answer_scorer.py`: 0.0 on an empty
mapping, else the mean of the score fields rounded to one decimal place.
The id-keyed dict is an association list; only its values are used. -/
def calculate_overall_score (scores : List (String × AnswerScore)) : Rat :=
  if scores.isEmpty then 0
  else pyRound1 ((scores.map (fun p => (p.2.score : Rat))).sum / (scores.length : Rat))

/-- An `AnswerScore` holding only a score, for concrete examples. -/
def scoreOnly (n : Int) : AnswerScore :=
  { score := n, reasoning := "", strengths := [], improvements := [] }

/-- C8: the overall score is the arithmetic mean of the score fields rounded
to one decimal place, 0.0 on the empty mapping, with the spec's examples. -/
theorem calculate_overall_score_spec :
    calculate_overall_score [] = 0 ∧
    (∀ (p : String × AnswerScore) (l : List (String × AnswerScore)),
      calculate_overall_score (p :: l) =
        pyRound1 (((p :: l).map (fun q => (q.2.score : Rat))).sum / ((p :: l).length : Rat))) ∧
    calculate_overall_score [("a", scoreOnly 8), ("b", scoreOnly 6)] = 7 ∧
    calculate_overall_score [("a", scoreOnly 7), ("b", scoreOnly 8), ("c", scoreOnly 9)] = 8 := by
  refine ⟨rfl, fun p l => rfl, ?_, ?_⟩ <;>
    simp [calculate_overall_score, pyRound1, roundHalfEven, scoreOnly] <;> norm_num

/-- `QAQuestion` from `core/schemas.py` before materialization: the
`question_id` is optional (`str | None = None`), `difficulty` defaults to
`"medium"`. -/
structure QAQuestion where
  topic : String
  question : String
  difficulty : String := "medium"
  question_id : Option String := none
deriving DecidableEq

/-- Pydantic validation of `QAQuestion(**it)` on a JSON dict: `topic` and
`question` must be strings, `difficulty` defaults to `"medium"` and must
otherwise be one of the three literals, `question_id` may be absent, null or
a string.  `none` models a `ValidationError`. -/
def parseDifficulty : Option JVal → Option String
  | none => some "medium"
  | some (.jstr d) => if d = "easy" ∨ d = "medium" ∨ d = "hard" then some d else none
  | some _ => none

def parseQid : Option JVal → Option (Option String)
  | none => some none
  | some .jnull => some none
  | some (.jstr s) => some (some s)
  | some _ => none

def parseQAItem (fs : List (String × JVal)) : Option QAQuestion :=
  match jget fs "topic", jget fs "question" with
  | some (.jstr t), some (.jstr q) =>
    match parseDifficulty (jget fs "difficulty"), parseQid (jget fs "question_id") with
    | some d, some qi => some { topic := t, question := q, difficulty := d, question_id := qi }
    | _, _ => none
  | _, _ => none

/-- The item loop of `generate_stack_questions`: dict items failing pydantic
validation are skipped (`except ValidationError: continue`); a non-dict item
makes `QAQuestion(**it)` raise a `TypeError` that propagates out of the
function (`none`). -/
def collectItems : List JVal → Option (List QAQuestion)
  | [] => some []
  | .jobj fs :: rest =>
    match parseQAItem fs with
    | some q => (collectItems rest).map (fun qs => q :: qs)
    | none => collectItems rest
  | _ :: _ => none

/-- `_fallback_items` from `core/qa_generator.py`. -/
def fallback_items (stack : List String) (k : Nat) : List QAQuestion :=
  let base := if stack.isEmpty then ["general software engineering"] else stack
  (base.take k).map (fun t =>
    { topic := t,
      question := "Briefly explain core principles of " ++ t ++ ".",
      difficulty := "medium", question_id := none })

/-- The `isinstance(data, dict) and isinstance(data.get("items"), list)`
guard of `generate_stack_questions` followed by the validation loop: any
shape other than a dict with a list under `"items"` yields the empty item
list. -/
def parseItemsPayload : Option JVal → Option (List QAQuestion)
  | some (.jobj fs) =>
    match jget fs "items" with
    | some (.jarr xs) => collectItems xs
    | _ => some []
  | _ => some []

/-- `generate_stack_questions` from `core/qa_generator.py`.  The result is
the `QASet.items` list; `none` models the call raising (service failure on
every retry attempt, or a `TypeError` from a non-dict item), which the
caller observes as an exception. -/
def generate_stack_questions (stack : List String) (k : Nat) (svc : SvcOutcome) :
    Option (List QAQuestion) :=
  let stackN := (stack.filter (fun s => pyStrip s != "")).map pyStrip
  match svc with
  | .failure => none
  | .response parsed =>
    (parseItemsPayload parsed).map (fun items =>
      (if items.isEmpty then fallback_items stackN k else items).take k)

/-- `questions_map` from `generate_questions_sync` in `app.py`, in insertion
order. -/
def questions_map : List (String × String) := [
  ("python", "Explain the difference between lists and tuples in Python and when to use each."),
  ("django", "How does Django\x27s ORM work and what are its main advantages?"),
  ("javascript", "What is the difference between == and === in JavaScript?"),
  ("react", "Explain the component lifecycle in React."),
  ("sql", "What\x27s the difference between INNER JOIN and LEFT JOIN?"),
  ("machine learning", "Explain the bias-variance tradeoff in machine learning."),
  ("data science", "How do you handle missing data in a dataset?"),
  ("aws", "What are the key differences between EC2 and Lambda?"),
  ("docker", "Explain the difference between Docker images and containers."),
  ("git", "What\x27s the difference between merge and rebase in Git?"),
  ("nodejs", "Explain the event loop in Node.js."),
  ("java", "What\x27s the difference between abstract classes and interfaces in Java?"),
  ("c++", "Explain the concept of RAII in C++."),
  ("kubernetes", "What\x27s the difference between Deployment and StatefulSet?"),
  ("mongodb", "Explain the difference between SQL and NoSQL databases.")]

/-- The inner lookup loop of the enhanced fallback in
`generate_questions_sync`: first map entry whose key matches the lowercased
tech by substring in either direction and whose question is not yet used. -/
def findMapQuestion (tech_lower : String) (used : List String) : Option String :=
  (questions_map.find? (fun p =>
    (strContains tech_lower p.1 || strContains p.1 tech_lower) && !(used.contains p.2))).map
    (fun p => p.2)

/-- The per-tech item loop of the enhanced fallback in
`generate_questions_sync`.  `fresh` supplies the `str(uuid.uuid4())[:8]`
tokens, indexed by item position. -/
def syncItems (fresh : Nat → String) : List String → Nat → List String → List QAQuestion
  | [], _, _ => []
  | tech :: rest, i, used =>
    let tech_lower := pyStrip (pyLower tech)
    match findMapQuestion tech_lower used with
    | some q =>
      { topic := tech, question := q, difficulty := "medium",
        question_id := some (fresh i) } :: syncItems fresh rest (i + 1) (used ++ [q])
    | none =>
      { topic := tech,
        question := "Describe a challenging project you worked on using " ++ tech ++
          " and how you solved key problems.",
        difficulty := "medium", question_id := some (fresh i) }
        :: syncItems fresh rest (i + 1) used

/-- The `while len(items) < k` padding loop of the enhanced fallback. -/
def padItems (n : Nat) (start : Nat) (fresh : Nat → String) : List QAQuestion :=
  (List.range n).map (fun j =>
    { topic := "general",
      question := "Describe your approach to debugging complex technical issues.",
      difficulty := "medium", question_id := some (fresh (start + j)) })

/-- `generate_questions_sync` from `app.py`: forward the generator result,
or on any exception build the enhanced fallback item list, pad it to `k`
items and truncate to `k`. -/
def generate_questions_sync (stack : List String) (k : Nat) (svc : SvcOutcome)
    (fresh : Nat → String) : List QAQuestion :=
  match generate_stack_questions stack k svc with
  | some items => items
  | none =>
    let base := if stack.isEmpty then ["general software engineering"] else stack
    let items := syncItems fresh (base.take k) 0 []
    (items ++ padItems (k - items.length) items.length fresh).take k

/-- The id kept by `q.question_id or str(uuid.uuid4())[:8]`: the supplied id
exactly when it is non-null and non-empty (Python truthiness). -/
def truthyId (q : QAQuestion) : Option String :=
  match q.question_id with
  | some s => if s = "" then none else some s
  | none => none

/-- The id committed for the `i`-th materialized question dict. -/
def assignedId (fresh : Nat → String) (i : Nat) (q : QAQuestion) : String :=
  match q.question_id with
  | some s => if s = "" then fresh i else s
  | none => fresh i

/-- The `questions_data` materialization loop of the `GENERATE_QA` handler
in `app.py`, with the uuid supply indexed by item position. -/
def materializeFrom (fresh : Nat → String) : Nat → List QAQuestion → List QDict
  | _, [] => []
  | i, q :: rest =>
    { topic := q.topic, question := q.question, difficulty := q.difficulty,
      question_id := assignedId fresh i q } :: materializeFrom fresh (i + 1) rest

/-- `questions_data` as stored in `st.session_state.generated_questions`
and `candidate.technical_questions`. -/
def materialize (items : List QAQuestion) (fresh : Nat → String) : List QDict :=
  materializeFrom fresh 0 items

/-- A difficulty value admitted by the `QAQuestion` schema. -/
def diffOk (q : QAQuestion) : Prop :=
  q.difficulty = "easy" ∨ q.difficulty = "medium" ∨ q.difficulty = "hard"

theorem ne_empty_of_pyStrip_ne_empty {s : String} (h : pyStrip s ≠ "") : s ≠ "" := by
  intro he
  subst he
  exact h rfl

theorem string_append_ne_empty_left (a b : String) (ha : a ≠ "") : a ++ b ≠ "" := by
  intro h
  apply ha
  have hl := congrArg String.length h
  rw [String.length_append] at hl
  have h0 : a.length = 0 := by
    have : (String.length "") = 0 := rfl
    omega
  cases a with
  | mk data =>
    cases data with
    | nil => rfl
    | cons c cs => exact absurd h0 (by simp [String.length])

theorem syncItems_length (fresh : Nat → String) :
    ∀ (techs : List String) (i : Nat) (used : List String),
      (syncItems fresh techs i used).length = techs.length := by
  intro techs
  induction techs with
  | nil => intro i used; rfl
  | cons t rest ih =>
    intro i used
    simp only [syncItems]
    cases hf : findMapQuestion (pyStrip (pyLower t)) used <;>
      simp [ih]

theorem questions_map_values_ne_empty : ∀ p ∈ questions_map, p.2 ≠ "" := by decide

theorem findMapQuestion_mem (tl : String) (used : List String) (q : String)
    (h : findMapQuestion tl used = some q) : ∃ p ∈ questions_map, p.2 = q := by
  unfold findMapQuestion at h
  cases hf : questions_map.find? (fun p =>
      (strContains tl p.1 || strContains p.1 tl) && !(used.contains p.2)) with
  | none => rw [hf] at h; cases h
  | some p =>
    rw [hf] at h
    cases h
    exact ⟨p, List.mem_of_find?_eq_some hf, rfl⟩

theorem syncItems_mem (fresh : Nat → String) :
    ∀ (techs : List String) (i : Nat) (used : List String) (q : QAQuestion),
      q ∈ syncItems fresh techs i used →
      q.difficulty = "medium" ∧ q.topic ∈ techs ∧ q.question ≠ "" := by
  intro techs
  induction techs with
  | nil => intro i used q h; cases h
  | cons t rest ih =>
    intro i used q h
    simp only [syncItems] at h
    cases hf : findMapQuestion (pyStrip (pyLower t)) used with
    | none =>
      rw [hf] at h
      rcases List.mem_cons.mp h with rfl | htail
      · refine ⟨rfl, List.mem_cons_self _ _, ?_⟩
        show ("Describe a challenging project you worked on using " ++ t ++
          " and how you solved key problems.") ≠ ""
        exact string_append_ne_empty_left _ _
          (string_append_ne_empty_left _ _ (by decide))
      · obtain ⟨hd, ht, hq⟩ := ih (i + 1) used q htail
        exact ⟨hd, List.mem_cons_of_mem _ ht, hq⟩
    | some qq =>
      rw [hf] at h
      rcases List.mem_cons.mp h with rfl | htail
      · obtain ⟨p, hp, hpq⟩ := findMapQuestion_mem _ _ _ hf
        exact ⟨rfl, List.mem_cons_self _ _, hpq ▸ questions_map_values_ne_empty p hp⟩
      · obtain ⟨hd, ht, hq⟩ := ih (i + 1) (used ++ [qq]) q htail
        exact ⟨hd, List.mem_cons_of_mem _ ht, hq⟩

theorem padItems_length (n start : Nat) (fresh : Nat → String) :
    (padItems n start fresh).length = n := by
  simp [padItems]

theorem padItems_mem (n start : Nat) (fresh : Nat → String) (q : QAQuestion)
    (h : q ∈ padItems n start fresh) :
    q.topic = "general" ∧ q.difficulty = "medium" ∧ q.question ≠ "" := by
  simp only [padItems, List.mem_map] at h
  obtain ⟨j, hj, rfl⟩ := h
  refine ⟨rfl, rfl, ?_⟩
  show "Describe your approach to debugging complex technical issues." ≠ ""
  decide

theorem fallback_items_length (stack : List String) (k : Nat) :
    (fallback_items stack k).length =
      min k (if stack.isEmpty then 1 else stack.length) := by
  unfold fallback_items
  cases stack <;> simp

theorem fallback_items_mem (stack : List String) (k : Nat) (q : QAQuestion)
    (h : q ∈ fallback_items stack k) :
    q.difficulty = "medium" ∧
    q.topic ∈ (if stack.isEmpty then ["general software engineering"] else stack) ∧
    q.question ≠ "" := by
  simp only [fallback_items, List.mem_map] at h
  obtain ⟨t, ht, rfl⟩ := h
  exact ⟨rfl, List.take_subset _ _ ht,
    string_append_ne_empty_left _ _ (string_append_ne_empty_left _ _ (by decide))⟩

theorem parseDifficulty_ok (o : Option JVal) (d : String)
    (h : parseDifficulty o = some d) :
    d = "easy" ∨ d = "medium" ∨ d = "hard" := by
  unfold parseDifficulty at h
  repeat' split at h
  all_goals
    first
      | exact Option.noConfusion h
      | (injection h with h'
         subst h'
         tauto)

theorem parseQAItem_diffOk (fs : List (String × JVal)) (q : QAQuestion)
    (h : parseQAItem fs = some q) : diffOk q := by
  unfold parseQAItem at h
  split at h
  · split at h
    · injection h with h'
      subst h'
      exact parseDifficulty_ok _ _ (by assumption)
    · exact Option.noConfusion h
  · exact Option.noConfusion h

theorem collectItems_diffOk : ∀ (xs : List JVal) (items : List QAQuestion),
    collectItems xs = some items → ∀ q ∈ items, diffOk q := by
  intro xs
  induction xs with
  | nil =>
    intro items h q hq
    cases h
    cases hq
  | cons x rest ih =>
    intro items h q hq
    cases x <;> try exact Option.noConfusion h
    next fs =>
      unfold collectItems at h
      cases hp : parseQAItem fs with
      | some q0 =>
        rw [hp] at h
        cases hc : collectItems rest with
        | none => rw [hc] at h; cases h
        | some qs =>
          rw [hc] at h
          injection h with h'
          subst h'
          rcases List.mem_cons.mp hq with rfl | hq'
          · exact parseQAItem_diffOk _ _ hp
          · exact ih qs hc q hq'
      | none =>
        rw [hp] at h
        exact ih items h q hq

theorem parseItemsPayload_diffOk (parsed : Option JVal) (X : List QAQuestion)
    (h : parseItemsPayload parsed = some X) : ∀ q ∈ X, diffOk q := by
  cases parsed with
  | none =>
    cases h
    intro q hq
    cases hq
  | some v =>
    cases v <;>
      try (cases h; intro q hq; cases hq)
    next fs =>
      unfold parseItemsPayload at h
      dsimp only at h
      cases hit : jget fs "items" with
      | none =>
        rw [hit] at h
        cases h
        intro q hq
        cases hq
      | some v' =>
        rw [hit] at h
        cases v' <;>
          try (cases h; intro q hq; cases hq)
        next xs => exact collectItems_diffOk xs X h

/-- Facts about the failure path of `generate_questions_sync` (taken both on
total service failure and on a `TypeError` escaping the generator). -/
theorem generate_questions_sync_none_facts (stack : List String) (k : Nat)
    (svc : SvcOutcome) (fresh : Nat → String)
    (h : generate_stack_questions stack k svc = none) :
    (generate_questions_sync stack k svc fresh).length = k ∧
    ∀ q ∈ generate_questions_sync stack k svc fresh,
      q.difficulty = "medium" ∧
      (q.topic ∈ (if stack.isEmpty then ["general software engineering"] else stack) ∨
        q.topic = "general") ∧
      q.question ≠ "" := by
  unfold generate_questions_sync
  rw [h]
  simp only []
  constructor
  · simp only [List.length_take, List.length_append, syncItems_length, padItems_length]
    omega
  · intro q hq
    have hq' := List.take_subset _ _ hq
    rcases List.mem_append.mp hq' with hs | hp
    · obtain ⟨hd, ht, hqn⟩ := syncItems_mem fresh _ _ _ _ hs
      exact ⟨hd, Or.inl (List.take_subset _ _ ht), hqn⟩
    · obtain ⟨ht, hd, hqn⟩ := padItems_mem _ _ _ _ hp
      exact ⟨hd, Or.inr ht, hqn⟩

/-- Facts about the `items[:k]` branch of `generate_stack_questions`. -/
theorem take_branch_facts (stackN : List String) (k : Nat) (X : List QAQuestion)
    (hk : 1 ≤ k) (hX : ∀ q ∈ X, diffOk q) :
    1 ≤ ((if X.isEmpty then fallback_items stackN k else X).take k).length ∧
    ((if X.isEmpty then fallback_items stackN k else X).take k).length ≤ k ∧
    ∀ q ∈ (if X.isEmpty then fallback_items stackN k else X).take k, diffOk q := by
  by_cases hX0 : X = []
  · subst hX0
    simp only [List.isEmpty_nil, if_true]
    refine ⟨?_, ?_, ?_⟩
    · rw [List.length_take, fallback_items_length]
      cases stackN <;> simp <;> omega
    · rw [List.length_take]
      omega
    · intro q hq
      have := fallback_items_mem stackN k q (List.take_subset _ _ hq)
      exact Or.inr (Or.inl this.1)
  · rw [if_neg (by simpa [List.isEmpty_iff] using hX0)]
    refine ⟨?_, ?_, ?_⟩
    · rw [List.length_take]
      have : 0 < X.length := List.length_pos.mpr hX0
      omega
    · rw [List.length_take]
      omega
    · intro q hq
      exact hX q (List.take_subset _ _ hq)

/-- C1 (amended): with the service failing on every attempt, the composed
question-generation operation returns exactly `k` questions, each with
non-empty topic, non-empty question and a valid difficulty (given a tech
stack of non-blank entries); when the service responds, the operation
returns between 1 and `k` questions (for `k ≥ 1`), each with a valid
difficulty. -/
theorem generate_questions_sync_spec (stack : List String) (k : Nat)
    (svc : SvcOutcome) (fresh : Nat → String)
    (hstack : ∀ s ∈ stack, pyStrip s ≠ "") :
    (svc = .failure →
      (generate_questions_sync stack k svc fresh).length = k ∧
      ∀ q ∈ generate_questions_sync stack k svc fresh,
        q.topic ≠ "" ∧ q.question ≠ "" ∧ diffOk q) ∧
    (∀ parsed, svc = .response parsed → 1 ≤ k →
      1 ≤ (generate_questions_sync stack k svc fresh).length ∧
      (generate_questions_sync stack k svc fresh).length ≤ k ∧
      ∀ q ∈ generate_questions_sync stack k svc fresh, diffOk q) := by
  constructor
  · intro hsvc
    subst hsvc
    obtain ⟨hlen, hmem⟩ :=
      generate_questions_sync_none_facts stack k .failure fresh rfl
    refine ⟨hlen, fun q hq => ?_⟩
    obtain ⟨hd, ht, hqn⟩ := hmem q hq
    refine ⟨?_, hqn, Or.inr (Or.inl hd)⟩
    rcases ht with ht | ht
    · cases hs0 : stack.isEmpty
      · rw [hs0] at ht
        simp only [Bool.false_eq_true, if_false] at ht
        exact ne_empty_of_pyStrip_ne_empty (hstack _ ht)
      · rw [hs0] at ht
        simp only [if_true] at ht
        rw [List.mem_singleton.mp ht]
        decide
    · rw [ht]; decide
  · intro parsed hsvc hk
    subst hsvc
    cases hres : generate_stack_questions stack k (.response parsed) with
    | none =>
      obtain ⟨hlen, hmem⟩ :=
        generate_questions_sync_none_facts stack k (.response parsed) fresh hres
      refine ⟨by omega, by omega, fun q hq => Or.inr (Or.inl (hmem q hq).1)⟩
    | some items0 =>
      have hgen : generate_questions_sync stack k (.response parsed) fresh = items0 := by
        unfold generate_questions_sync
        rw [hres]
      rw [hgen]
      unfold generate_stack_questions at hres
      dsimp only at hres
      cases hpp : parseItemsPayload parsed with
      | none => rw [hpp] at hres; exact Option.noConfusion hres
      | some X =>
        rw [hpp] at hres
        injection hres with hres'
        subst hres'
        exact take_branch_facts _ k X hk (parseItemsPayload_diffOk parsed X hpp)

/-- C1 witness: the amended theorem applied at stack `["python"]`, `k = 5`,
total service failure. -/
theorem generate_questions_sync_spec_witness :
    (generate_questions_sync ["python"] 5 .failure (fun _ => "x")).length = 5 ∧
    ∀ q ∈ generate_questions_sync ["python"] 5 .failure (fun _ => "x"),
      q.topic ≠ "" ∧ q.question ≠ "" ∧ diffOk q :=
  (generate_questions_sync_spec ["python"] 5 .failure (fun _ => "x")
    (by decide)).1 rfl

/-- C1 counterexample: with a service reply containing no parseable JSON and
a single declared technology, the operation returns 1 question, not `k = 5`. -/
theorem generate_questions_sync_counterexample :
    (generate_questions_sync ["python"] 5 (.response none) (fun _ => "x")).length = 1 ∧
    (generate_questions_sync ["python"] 5 (.response none) (fun _ => "x")).length ≠ 5 := by
  constructor <;> decide

theorem assignedId_eq (fresh : Nat → String) (i : Nat) (q : QAQuestion) :
    assignedId fresh i q = (truthyId q).getD (fresh i) := by
  unfold assignedId truthyId
  cases q.question_id with
  | none => rfl
  | some s => by_cases hs : s = "" <;> simp [hs]

theorem truthyId_some_ne_empty (q : QAQuestion) (s : String)
    (h : truthyId q = some s) : s ≠ "" := by
  unfold truthyId at h
  cases hq : q.question_id with
  | none => rw [hq] at h; cases h
  | some t =>
    rw [hq] at h
    dsimp only at h
    by_cases ht : t = ""
    · rw [if_pos ht] at h; cases h
    · rw [if_neg ht] at h
      injection h with h'
      subst h'
      exact ht

theorem mem_materializeFrom_ids (fresh : Nat → String) :
    ∀ (l : List QAQuestion) (j : Nat) (x : String),
      x ∈ (materializeFrom fresh j l).map (fun d => d.question_id) →
      (∃ q' ∈ l, truthyId q' = some x) ∨
        ∃ a, j ≤ a ∧ a < j + l.length ∧ x = fresh a := by
  intro l
  induction l with
  | nil => intro j x h; cases h
  | cons q rest ih =>
    intro j x h
    have hlen : (q :: rest).length = rest.length + 1 := rfl
    simp only [materializeFrom, List.map_cons] at h
    rcases List.mem_cons.mp h with hx | hx
    · rw [assignedId_eq] at hx
      cases ht : truthyId q with
      | some s =>
        rw [ht] at hx
        simp only [Option.getD_some] at hx
        exact Or.inl ⟨q, List.mem_cons_self _ _, by rw [ht, hx]⟩
      | none =>
        rw [ht] at hx
        simp only [Option.getD_none] at hx
        exact Or.inr ⟨j, le_refl j, by omega, hx⟩
    · rcases ih (j + 1) x hx with ⟨q', hq', ht⟩ | ⟨a, ha1, ha2, hx'⟩
      · exact Or.inl ⟨q', List.mem_cons_of_mem _ hq', ht⟩
      · exact Or.inr ⟨a, by omega, by omega, hx'⟩

theorem materializeFrom_ids_nodup (fresh : Nat → String) :
    ∀ (l : List QAQuestion) (j : Nat),
      (∀ a b, j ≤ a → a < j + l.length → j ≤ b → b < j + l.length → fresh a = fresh b → a = b) →
      (∀ a q, j ≤ a → a < j + l.length → q ∈ l → truthyId q ≠ some (fresh a)) →
      l.Pairwise (fun q q' => truthyId q = none ∨ truthyId q ≠ truthyId q') →
      ((materializeFrom fresh j l).map (fun d => d.question_id)).Nodup := by
  intro l
  induction l with
  | nil => intro j _ _ _; exact List.nodup_nil
  | cons q rest ih =>
    intro j hinj hfree hpw
    have hlen : (q :: rest).length = rest.length + 1 := rfl
    simp only [materializeFrom, List.map_cons]
    rw [List.nodup_cons]
    constructor
    · intro hmem
      rcases mem_materializeFrom_ids fresh rest (j + 1) _ hmem with
        ⟨q', hq', ht'⟩ | ⟨a, ha1, ha2, hx⟩
      · rw [assignedId_eq] at ht'
        cases ht : truthyId q with
        | some s =>
          rw [ht] at ht'
          simp only [Option.getD_some] at ht'
          have hrel := (List.pairwise_cons.mp hpw).1 q' hq'
          rcases hrel with h0 | hne
          · rw [h0] at ht
            cases ht
          · exact hne (by rw [ht, ht'])
        | none =>
          rw [ht] at ht'
          simp only [Option.getD_none] at ht'
          exact hfree j q' (le_refl _) (by omega) (List.mem_cons_of_mem _ hq') ht'
      · rw [assignedId_eq] at hx
        cases ht : truthyId q with
        | some s =>
          rw [ht] at hx
          simp only [Option.getD_some] at hx
          have hts : truthyId q = some (fresh a) := by rw [ht, hx]
          exact hfree a q (by omega) (by omega) (List.mem_cons_self _ _) hts
        | none =>
          rw [ht] at hx
          simp only [Option.getD_none] at hx
          have : j = a := hinj j a (le_refl _) (by omega) (by omega) (by omega) hx
          omega
    · refine ih (j + 1) ?_ ?_ (List.pairwise_cons.mp hpw).2
      · intro a b ha1 ha2 hb1 hb2 he
        exact hinj a b (by omega) (by omega) (by omega) (by omega) he
      · intro a q' ha1 ha2 hq'
        exact hfree a q' (by omega) (by omega) (List.mem_cons_of_mem _ hq')

/-- C3 (amended): every materialized question dict carries a non-empty
`question_id`, freshly assigned whenever the service supplied none (or an
empty one); the ids are pairwise distinct provided the uuid supply is
injective, yields non-empty tokens, avoids the service-supplied ids, and
the truthy service-supplied ids are themselves pairwise distinct — the code
keeps service-supplied ids verbatim, so duplicates among them survive. -/
theorem materialize_ids (items : List QAQuestion) (fresh : Nat → String)
    (hinj : ∀ a < items.length, ∀ b < items.length, fresh a = fresh b → a = b)
    (hne : ∀ a < items.length, fresh a ≠ "")
    (hfree : ∀ a < items.length, ∀ q ∈ items, truthyId q ≠ some (fresh a))
    (hpw : items.Pairwise (fun q q' => truthyId q = none ∨ truthyId q ≠ truthyId q')) :
    ((materialize items fresh).map (fun d => d.question_id)).Nodup ∧
    ∀ d ∈ materialize items fresh, d.question_id ≠ "" := by
  constructor
  · exact materializeFrom_ids_nodup fresh items 0
      (fun a b _ ha _ hb he => hinj a (by omega) b (by omega) he)
      (fun a q _ ha hq => hfree a (by omega) q hq)
      hpw
  · intro d hd
    have hmem : d.question_id ∈
        (materializeFrom fresh 0 items).map (fun d => d.question_id) :=
      List.mem_map_of_mem _ hd
    rcases mem_materializeFrom_ids fresh items 0 _ hmem with ⟨q', _, ht⟩ | ⟨a, _, ha2, hx⟩
    · exact truthyId_some_ne_empty q' _ ht
    · rw [hx]
      exact hne a (by omega)

/-- C3 witness: the amended theorem applied to a concrete two-item list, one
id service-supplied and one freshly assigned. -/
theorem materialize_ids_witness :
    ((materialize [⟨"python", "q1", "easy", some "svc1"⟩, ⟨"sql", "q2", "hard", none⟩]
        (fun a => if a = 0 then "u0" else "u1")).map (fun d => d.question_id)).Nodup ∧
    ∀ d ∈ materialize [⟨"python", "q1", "easy", some "svc1"⟩, ⟨"sql", "q2", "hard", none⟩]
        (fun a => if a = 0 then "u0" else "u1"), d.question_id ≠ "" :=
  materialize_ids _ _ (by decide) (by decide) (by decide) (by decide)

/-- C3 counterexample: when the service supplies the same `question_id` for
two items, the materialized id list is not pairwise distinct. -/
theorem materialize_ids_counterexample :
    ¬ (((materialize (generate_questions_sync ["python"] 5
        (.response (some (.jobj [("items", .jarr [
          .jobj [("topic", .jstr "python"), ("question", .jstr "q1"),
                 ("difficulty", .jstr "easy"), ("question_id", .jstr "x")],
          .jobj [("topic", .jstr "sql"), ("question", .jstr "q2"),
                 ("difficulty", .jstr "hard"), ("question_id", .jstr "x")]])])))
        (fun _ => "f0")) (fun _ => "f0")).map (fun d => d.question_id)).Nodup) := by
  decide

/-- The consent keyword list in `apply_answer_to_step` (`app.py`). -/
def consent_words : List String := ["agree", "yes", "ok", "proceed", "accept", "confirm"]

/-- Python `val.strip(",. ")` as used on email input: strip commas, dots
and spaces from both ends. -/
def stripPunct (s : String) : String :=
  ⟨((s.data.dropWhile (fun c => c == ',' || c == '.' || c == ' ')).reverse.dropWhile
      (fun c => c == ',' || c == '.' || c == ' ')).reverse⟩

/-- `EMAIL_RX = ^[^@\s]+@[^@\s]+\.[^@\s]+$` from `app.py` as an executable
matcher: no whitespace, exactly one `@` with a non-empty part before it,
and after it a part containing a `.` with non-empty text on both sides of
some dot (equivalently, a dot at an interior position). -/
def emailOk (s : String) : Bool :=
  let cs := s.data
  let localPart := cs.takeWhile (fun c => c != '@')
  let rest := cs.dropWhile (fun c => c != '@')
  match rest with
  | [] => false
  | _ :: domain =>
    !cs.any Char.isWhitespace &&
    !domain.contains '@' &&
    !localPart.isEmpty &&
    (domain.drop 1).dropLast.contains '.'

/-- Python `str.startswith("+")`. -/
def startsWithPlus (s : String) : Bool :=
  match s.data with
  | '+' :: _ => true
  | _ => false

/-- Python `str.replace(a, b)` for single characters. -/
def pyReplace (s : String) (a b : Char) : String :=
  ⟨s.data.map (fun c => if c = a then b else c)⟩

/-- Numeric value of a digit list. -/
def digitsVal (cs : List Char) : Nat :=
  cs.foldl (fun a c => a * 10 + (c.toNat - 48)) 0

/-- Python builtin `float(...)` on the intake input, modelled for plain
signed decimal forms `[+-]digits`, `[+-]digits.digits`, `[+-].digits` and
`[+-]digits.`; the builtin's exponent, underscore and `inf`/`nan` forms
are not modelled (they are outside the inputs this flow is specified on). -/
def pyFloat (s : String) : Option Rat :=
  let p : Rat × List Char :=
    match s.data with
    | '-' :: r => (-1, r)
    | '+' :: r => (1, r)
    | cs => (1, cs)
  let intPart := p.2.takeWhile Char.isDigit
  let rest := p.2.dropWhile Char.isDigit
  match rest with
  | [] => if intPart.isEmpty then none else some (p.1 * (digitsVal intPart : Rat))
  | '.' :: frac =>
    if frac.all Char.isDigit && !(intPart.isEmpty && frac.isEmpty) then
      some (p.1 * ((digitsVal intPart : Rat) + (digitsVal frac : Rat) / ((10 : Rat) ^ frac.length)))
    else none
  | _ => none

/-- Split a character list on a separator (Python `str.split(",")`). -/
def splitOnChar (sep : Char) : List Char → List (List Char)
  | [] => [[]]
  | c :: rest =>
    match splitOnChar sep rest with
    | [] => [[]]
    | cur :: parts => if c = sep then [] :: cur :: parts else (c :: cur) :: parts

/-- `[s.strip() for s in val.split(",") if s.strip()]` from `app.py`. -/
def splitCommaTokens (s : String) : List String :=
  ((splitOnChar ',' s.data).map (fun cs => pyStrip ⟨cs⟩)).filter (fun t => t != "")

/-- `Candidate()` as constructed by `initialize_session`. -/
def defaultCandidate : Candidate := {}

/-- `apply_answer_to_step` from `app.py`: `some c'` when the answer is
accepted and committed, `none` on a validation rejection (the guidance
messages are display-only).  Pydantic field validators do not run on
attribute assignment (`validate_assignment` is off), so accepted values
are committed verbatim. -/
def apply_answer_to_step (step : String) (text : String) (c : Candidate) : Option Candidate :=
  let val := pyStrip text
  if step = "CONSENT" then
    if consent_words.any (fun w => strContains (pyLower val) w) then
      some { c with consent_given := true }
    else none
  else if step = "INTAKE_NAME" then
    if val ≠ "" ∧ 2 ≤ (pyStrip val).length then
      some { c with full_name := some (pyStrip val) }
    else none
  else if step = "INTAKE_EMAIL" then
    if emailOk (pyLower (stripPunct (pyStrip val))) then
      some { c with email := some (pyLower (stripPunct (pyStrip val))) }
    else none
  else if step = "INTAKE_PHONE" then
    if 6 ≤ (⟨val.data.filter (fun ch => ch.isDigit || ch == '+')⟩ : String).length ∧
        (startsWithPlus ⟨val.data.filter (fun ch => ch.isDigit || ch == '+')⟩ = true ∨
          pyIsdigit ⟨val.data.filter (fun ch => ch.isDigit || ch == '+')⟩ = true) then
      some { c with phone := some ⟨val.data.filter (fun ch => ch.isDigit || ch == '+')⟩ }
    else none
  else if step = "INTAKE_YOE" then
    match pyFloat (pyReplace val ',' '.') with
    | some years =>
      if 0 ≤ years ∧ years ≤ 50 then some { c with years_experience := some years }
      else none
    | none => none
  else if step = "INTAKE_POSITION" then
    if val ≠ "" ∧ 2 ≤ (pyStrip val).length then
      some { c with desired_positions := splitCommaTokens val }
    else none
  else if step = "INTAKE_LOCATION" then
    if val ≠ "" ∧ 2 ≤ (pyStrip val).length then
      some { c with current_location := some (pyStrip val) }
    else none
  else if step = "INTAKE_TECH" then
    if val ≠ "" ∧ 2 ≤ (pyStrip val).length then
      some { c with tech_stack := splitCommaTokens val }
    else none
  else none

/-- The parts of `st.session_state` that carry conversation state
(`initialize_session` in `app.py`); the display-only `history` and
`initialized` flags are omitted. -/
structure Session where
  candidate : Candidate
  state : ConvState
  generated_questions : List QDict
  questions_generated : Bool
deriving DecidableEq

/-- One user turn's inputs: the typed prompt, the observable outcomes of
the generation and scoring service calls, whether the scoring `try` block
in `handle_technical_answer` fails around `score_answer` (its `except`
falls back to `simple_score_answer`), and the uuid supply. -/
structure TurnInput where
  prompt : String
  svcQA : SvcOutcome
  svcScore : SvcOutcome
  scoreRaises : Bool
  fresh : Nat → String

/-- `INTAKE_STEPS` from `app.py`. -/
def INTAKE_STEPS : List String :=
  ["CONSENT", "INTAKE_NAME", "INTAKE_EMAIL", "INTAKE_PHONE", "INTAKE_YOE",
   "INTAKE_POSITION", "INTAKE_LOCATION", "INTAKE_TECH"]

/-- Python dict assignment `m[k] = v` on an insertion-ordered dict with
unique keys: update in place or append. -/
def dictInsert {α : Type} : List (String × α) → String → α → List (String × α)
  | [], k, v => [(k, v)]
  | (k', v') :: rest, k, v =>
    if k' = k then (k, v) :: rest else (k', v') :: dictInsert rest k v

/-- The key list of a modelled dict. -/
def dictKeys {α : Type} (m : List (String × α)) : List String :=
  m.map (fun p => p.1)

/-- The `question_id`s of the candidate's stored technical questions. -/
def qids (s : Session) : List String :=
  s.candidate.technical_questions.map (fun d => d.question_id)

/-- `handle_technical_answer` from `app.py` as a state transformer (the
feedback messages are display-only).  Short answers and out-of-range
question cursors leave the session unchanged. -/
def handle_technical_answer (s : Session) (inp : TurnInput) : Session :=
  if (pyStrip inp.prompt).length < 10 then s
  else
    if hidx : s.state.current_question_index < s.generated_questions.length then
      let question := s.generated_questions.get ⟨s.state.current_question_index, hidx⟩
      let answers := dictInsert s.candidate.technical_answers question.question_id
        (pyStrip inp.prompt)
      let score :=
        if inp.scoreRaises then
          simple_score_answer (pyStrip inp.prompt) question.topic question.difficulty
        else
          score_answer question.question (pyStrip inp.prompt) question.topic
            question.difficulty (s.candidate.years_experience.getD 0) inp.svcScore
      let scores := dictInsert s.candidate.answer_scores question.question_id score
      if s.state.current_question_index + 1 < s.generated_questions.length then
        { s with
          candidate := { s.candidate with
            technical_answers := answers, answer_scores := scores },
          state := { s.state with
            current_question_index := s.state.current_question_index + 1 } }
      else
        { s with
          candidate := { s.candidate with
            technical_answers := answers, answer_scores := scores,
            overall_score := some (calculate_overall_score scores) },
          state := { s.state with
            current_question_index := s.state.current_question_index + 1,
            step := "FOLLOWUP" } }
    else s

/-- The `GENERATE_QA` block at the bottom of `app.py`'s script body: runs
when intake has completed and questions were not yet generated; on an
empty question list the `questions_data[0]` access raises and the `except`
moves to `FOLLOWUP` with the already-assigned question lists kept. -/
def generateQABlock (s : Session) (inp : TurnInput) : Session :=
  if s.state.step = "GENERATE_QA" ∧ s.questions_generated = false then
    let questions_data :=
      materialize (generate_questions_sync s.candidate.tech_stack 5 inp.svcQA inp.fresh) inp.fresh
    if questions_data.isEmpty then
      { candidate := { s.candidate with technical_questions := questions_data },
        state := { s.state with step := "FOLLOWUP" },
        generated_questions := questions_data,
        questions_generated := s.questions_generated }
    else
      { candidate := { s.candidate with technical_questions := questions_data },
        state := { s.state with step := "TECHNICAL_QA", current_question_index := 0 },
        generated_questions := questions_data,
        questions_generated := true }
  else s

/-- The prompt-handling part of a turn in `app.py`: exit detection
dominates; otherwise the current step routes to the intake validator, the
technical-answer handler, or the follow-up comment store. -/
def inputPhase (s : Session) (inp : TurnInput) : Session :=
  if detect_exit inp.prompt then
    { s with state := { s.state with exit_detected := true, step := "END" } }
  else if INTAKE_STEPS.contains s.state.step then
    match apply_answer_to_step s.state.step inp.prompt s.candidate with
    | some c' => { s with candidate := c', state := { s.state with step := next_step c' s.state } }
    | none => s
  else if s.state.step = "TECHNICAL_QA" then
    handle_technical_answer s inp
  else if s.state.step = "FOLLOWUP" then
    { s with candidate := { s.candidate with additional_comments := some (pyStrip inp.prompt) } }
  else s

/-- One full Streamlit rerun triggered by a chat prompt: input handling,
then the `GENERATE_QA` block (the end-of-session display block mutates no
conversation state). -/
def turn (s : Session) (inp : TurnInput) : Session :=
  generateQABlock (inputPhase s inp) inp

/-- The session right after `initialize_session`: default candidate, step
`CONSENT` (set right after the greeting), no questions generated. -/
def initialSession : Session :=
  { candidate := defaultCandidate, state := { step := "CONSENT" },
    generated_questions := [], questions_generated := false }

/-- Sessions reachable from a fresh session by user turns. -/
inductive Reachable : Session → Prop where
  | init : Reachable initialSession
  | step (s : Session) (inp : TurnInput) : Reachable s → Reachable (turn s inp)

/-- The inductive session invariant: the stored question list mirrors the
generated one, answer and score keys come from the stored question ids,
and nothing is answered before generation. -/
def SessionInv (s : Session) : Prop :=
  s.generated_questions = s.candidate.technical_questions ∧
  (∀ k ∈ dictKeys s.candidate.technical_answers, k ∈ qids s) ∧
  (∀ k ∈ dictKeys s.candidate.answer_scores, k ∈ qids s) ∧
  (s.questions_generated = false →
    s.candidate.technical_answers = [] ∧ s.candidate.answer_scores = [] ∧
    s.generated_questions = [])

set_option maxHeartbeats 1000000 in
theorem apply_answer_tech_fields (step text : String) (c c' : Candidate)
    (h : apply_answer_to_step step text c = some c') :
    c'.technical_questions = c.technical_questions ∧
    c'.technical_answers = c.technical_answers ∧
    c'.answer_scores = c.answer_scores := by
  simp only [apply_answer_to_step] at h
  repeat' split at h
  all_goals
    first
      | exact Option.noConfusion h
      | (injection h with h'
         subst h'
         exact ⟨rfl, rfl, rfl⟩)

theorem mem_dictKeys_dictInsert {α : Type} (m : List (String × α)) (k : String) (v : α) :
    ∀ x, x ∈ dictKeys (dictInsert m k v) ↔ x = k ∨ x ∈ dictKeys m := by
  induction m with
  | nil => intro x; simp [dictInsert, dictKeys]
  | cons p rest ih =>
    intro x
    by_cases hp : p.1 = k
    · cases p with
      | mk k' v' =>
        simp only at hp
        simp [dictInsert, if_pos hp, dictKeys, hp]
        try tauto
    · cases p with
      | mk k' v' =>
        simp only at hp
        simp only [dictInsert, if_neg hp, dictKeys, List.map_cons, List.mem_cons]
        rw [show (List.map (fun p => p.1) (dictInsert rest k v)) = dictKeys (dictInsert rest k v) from rfl]
        rw [ih x]
        simp [dictKeys]
        tauto

theorem handle_technical_answer_eq (s : Session) (inp : TurnInput) :
    handle_technical_answer s inp = s ∨
    ∃ (qid : String) (score : AnswerScore) (ov : Option Rat) (st' : ConvState),
      qid ∈ s.generated_questions.map (fun d => d.question_id) ∧
      handle_technical_answer s inp =
        { candidate := { s.candidate with
            technical_answers := dictInsert s.candidate.technical_answers qid (pyStrip inp.prompt),
            answer_scores := dictInsert s.candidate.answer_scores qid score,
            overall_score := ov },
          state := st',
          generated_questions := s.generated_questions,
          questions_generated := s.questions_generated } := by
  simp only [handle_technical_answer]
  split
  · exact Or.inl rfl
  · split
    · next hidx =>
      split
      · exact Or.inr ⟨_, _, _, _,
          List.mem_map_of_mem _ (s.generated_questions.get_mem _ _), rfl⟩
      · exact Or.inr ⟨_, _, _, _,
          List.mem_map_of_mem _ (s.generated_questions.get_mem _ _), rfl⟩
    · exact Or.inl rfl

theorem generateQABlock_eq (s : Session) (inp : TurnInput) :
    generateQABlock s inp = s ∨
    ((s.state.step = "GENERATE_QA" ∧ s.questions_generated = false) ∧
      ∃ (qd : List QDict) (st' : ConvState) (qg : Bool),
        (qg = false → qd = []) ∧
        generateQABlock s inp =
          { candidate := { s.candidate with technical_questions := qd },
            state := st', generated_questions := qd, questions_generated := qg }) := by
  simp only [generateQABlock]
  split
  · next hcond =>
    split
    · next hemp =>
      exact Or.inr ⟨hcond, _, _, _, fun _ => List.isEmpty_iff.mp hemp, rfl⟩
    · exact Or.inr ⟨hcond, _, _, _, fun hqg => Bool.noConfusion hqg, rfl⟩
  · exact Or.inl rfl

theorem inv_inputPhase (s : Session) (inp : TurnInput) (h : SessionInv s) :
    SessionInv (inputPhase s inp) := by
  obtain ⟨hA, hB1, hB2, hC⟩ := h
  unfold inputPhase
  split
  · exact ⟨hA, hB1, hB2, hC⟩
  · split
    · cases happ : apply_answer_to_step s.state.step inp.prompt s.candidate with
      | some c' =>
        obtain ⟨ht1, ht2, ht3⟩ := apply_answer_tech_fields _ _ _ _ happ
        refine ⟨?_, ?_, ?_, ?_⟩
        · show s.generated_questions = c'.technical_questions
          rw [ht1]
          exact hA
        · intro k hk
          have hk' : k ∈ dictKeys s.candidate.technical_answers := by
            have : dictKeys c'.technical_answers = dictKeys s.candidate.technical_answers := by
              rw [ht2]
            exact this ▸ hk
          show k ∈ c'.technical_questions.map (fun d => d.question_id)
          rw [ht1]
          exact hB1 k hk'
        · intro k hk
          have hk' : k ∈ dictKeys s.candidate.answer_scores := by
            have : dictKeys c'.answer_scores = dictKeys s.candidate.answer_scores := by
              rw [ht3]
            exact this ▸ hk
          show k ∈ c'.technical_questions.map (fun d => d.question_id)
          rw [ht1]
          exact hB2 k hk'
        · intro hfg
          obtain ⟨e1, e2, e3⟩ := hC hfg
          exact ⟨by rw [ht2]; exact e1, by rw [ht3]; exact e2, e3⟩
      | none => exact ⟨hA, hB1, hB2, hC⟩
    · split
      · rcases handle_technical_answer_eq s inp with heq | ⟨qid, score, ov, st', hqid, heq⟩
        · rw [heq]
          exact ⟨hA, hB1, hB2, hC⟩
        · rw [heq]
          have hgen_ne : s.generated_questions ≠ [] := by
            intro he
            rw [he] at hqid
            cases hqid
          have hflag : s.questions_generated = true := by
            cases hfg : s.questions_generated
            · exact absurd (hC hfg).2.2 hgen_ne
            · rfl
          refine ⟨hA, ?_, ?_, ?_⟩
          · intro k hk
            rcases (mem_dictKeys_dictInsert _ _ _ k).mp hk with rfl | hk'
            · show k ∈ s.candidate.technical_questions.map (fun d => d.question_id)
              rw [← hA]
              exact hqid
            · exact hB1 k hk'
          · intro k hk
            rcases (mem_dictKeys_dictInsert _ _ _ k).mp hk with rfl | hk'
            · show k ∈ s.candidate.technical_questions.map (fun d => d.question_id)
              rw [← hA]
              exact hqid
            · exact hB2 k hk'
          · intro hfg
            rw [hflag] at hfg
            cases hfg
      · split
        · exact ⟨hA, hB1, hB2, hC⟩
        · exact ⟨hA, hB1, hB2, hC⟩

theorem inv_generateQABlock (s : Session) (inp : TurnInput) (h : SessionInv s) :
    SessionInv (generateQABlock s inp) := by
  obtain ⟨hA, hB1, hB2, hC⟩ := h
  rcases generateQABlock_eq s inp with heq | ⟨⟨hstep, hflag⟩, qd, st', qg, hqg, heq⟩
  · rw [heq]
    exact ⟨hA, hB1, hB2, hC⟩
  · rw [heq]
    obtain ⟨e1, e2, e3⟩ := hC hflag
    refine ⟨rfl, ?_, ?_, ?_⟩
    · intro k hk
      have hk' : k ∈ dictKeys s.candidate.technical_answers := hk
      rw [e1] at hk'
      cases hk'
    · intro k hk
      have hk' : k ∈ dictKeys s.candidate.answer_scores := hk
      rw [e2] at hk'
      cases hk'
    · intro hqg'
      exact ⟨e1, e2, hqg hqg'⟩

theorem inv_turn (s : Session) (inp : TurnInput) (h : SessionInv s) :
    SessionInv (turn s inp) :=
  inv_generateQABlock _ _ (inv_inputPhase s inp h)

theorem reachable_inv (s : Session) (h : Reachable s) : SessionInv s := by
  induction h with
  | init =>
    refine ⟨rfl, ?_, ?_, fun _ => ⟨rfl, rfl, rfl⟩⟩
    · intro k hk
      cases hk
    · intro k hk
      cases hk
  | step s' inp hr ih => exact inv_turn s' inp ih

theorem generateQABlock_answer_maps (s : Session) (inp : TurnInput) :
    (generateQABlock s inp).candidate.technical_answers = s.candidate.technical_answers ∧
    (generateQABlock s inp).candidate.answer_scores = s.candidate.answer_scores := by
  rcases generateQABlock_eq s inp with heq | ⟨_, qd, st', qg, _, heq⟩ <;>
    rw [heq] <;> exact ⟨rfl, rfl⟩

theorem turn_keys_monotone (s : Session) (inp : TurnInput) :
    (∀ k ∈ dictKeys s.candidate.technical_answers,
      k ∈ dictKeys (turn s inp).candidate.technical_answers) ∧
    (∀ k ∈ dictKeys s.candidate.answer_scores,
      k ∈ dictKeys (turn s inp).candidate.answer_scores) := by
  unfold turn
  obtain ⟨hb1, hb2⟩ := generateQABlock_answer_maps (inputPhase s inp) inp
  rw [hb1, hb2]
  unfold inputPhase
  split
  · exact ⟨fun k hk => hk, fun k hk => hk⟩
  · split
    · cases happ : apply_answer_to_step s.state.step inp.prompt s.candidate with
      | some c' =>
        obtain ⟨_, ht2, ht3⟩ := apply_answer_tech_fields _ _ _ _ happ
        constructor
        · intro k hk
          show k ∈ dictKeys c'.technical_answers
          rw [ht2]
          exact hk
        · intro k hk
          show k ∈ dictKeys c'.answer_scores
          rw [ht3]
          exact hk
      | none => exact ⟨fun k hk => hk, fun k hk => hk⟩
    · split
      · rcases handle_technical_answer_eq s inp with heq | ⟨qid, score, ov, st', _, heq⟩
        · rw [heq]
          exact ⟨fun k hk => hk, fun k hk => hk⟩
        · rw [heq]
          exact ⟨fun k hk => (mem_dictKeys_dictInsert _ _ _ k).mpr (Or.inr hk),
                 fun k hk => (mem_dictKeys_dictInsert _ _ _ k).mpr (Or.inr hk)⟩
      · split
        · exact ⟨fun k hk => hk, fun k hk => hk⟩
        · exact ⟨fun k hk => hk, fun k hk => hk⟩

/-- C9: in every reachable session, the key sets of `technical_answers` and
`answer_scores` are subsets of the stored technical-question ids, and
neither key set loses a key across any further turn (keys only grow). -/
theorem session_answer_keys_invariant (s : Session) (h : Reachable s) :
    ((∀ k ∈ dictKeys s.candidate.technical_answers, k ∈ qids s) ∧
     (∀ k ∈ dictKeys s.candidate.answer_scores, k ∈ qids s)) ∧
    ∀ inp : TurnInput,
      (∀ k ∈ dictKeys s.candidate.technical_answers,
        k ∈ dictKeys (turn s inp).candidate.technical_answers) ∧
      (∀ k ∈ dictKeys s.candidate.answer_scores,
        k ∈ dictKeys (turn s inp).candidate.answer_scores) := by
  obtain ⟨_, hB1, hB2, _⟩ := reachable_inv s h
  exact ⟨⟨hB1, hB2⟩, fun inp => turn_keys_monotone s inp⟩

/-- C9 witness: the invariant at the freshly initialized session. -/
theorem session_answer_keys_invariant_witness :
    ((∀ k ∈ dictKeys initialSession.candidate.technical_answers, k ∈ qids initialSession) ∧
     (∀ k ∈ dictKeys initialSession.candidate.answer_scores, k ∈ qids initialSession)) ∧
    ∀ inp : TurnInput,
      (∀ k ∈ dictKeys initialSession.candidate.technical_answers,
        k ∈ dictKeys (turn initialSession inp).candidate.technical_answers) ∧
      (∀ k ∈ dictKeys initialSession.candidate.answer_scores,
        k ∈ dictKeys (turn initialSession inp).candidate.answer_scores) :=
  session_answer_keys_invariant initialSession Reachable.init

theorem intake_step_ne_generate (st : String) (h : st ∈ INTAKE_STEPS) :
    st ≠ "GENERATE_QA" := by
  intro he
  subst he
  revert h
  decide

/-- C10 (amended): on an intake step, for any input that contains no exit
keyword and that the step's validation rule rejects, the whole turn is a
no-op: every Candidate field and the conversation step are unchanged.  (An
input containing an exit keyword jumps to `END` before validation, so the
unrestricted claim fails.) -/
theorem intake_rejection_no_change (s : Session) (inp : TurnInput)
    (hstep : s.state.step ∈ INTAKE_STEPS)
    (hexit : detect_exit inp.prompt = false)
    (hrej : apply_answer_to_step s.state.step inp.prompt s.candidate = none) :
    turn s inp = s := by
  have hc : INTAKE_STEPS.contains s.state.step = true := by simpa using hstep
  have hin : inputPhase s inp = s := by
    unfold inputPhase
    rw [hexit]
    simp only [Bool.false_eq_true, if_false]
    rw [hc]
    simp only [eq_self_iff_true, if_true]
    rw [hrej]
  unfold turn
  rw [hin]
  unfold generateQABlock
  rw [if_neg (fun hcond => intake_step_ne_generate _ hstep hcond.1)]

/-- C10 witness: at `CONSENT`, the rejected input `"maybe"` leaves the
session untouched. -/
theorem intake_rejection_no_change_witness :
    turn initialSession
      { prompt := "maybe", svcQA := .failure, svcScore := .failure,
        scoreRaises := false, fresh := fun _ => "u" } = initialSession :=
  intake_rejection_no_change initialSession _ (by decide) (by decide) (by decide)

/-- C10 counterexample: at `CONSENT` the input `"stop"` is rejected by the
consent rule, yet the turn moves the conversation step to `END` because
exit detection runs first, so a rejected input can change the step. -/
theorem intake_rejection_counterexample :
    apply_answer_to_step "CONSENT" "stop" initialSession.candidate = none ∧
    initialSession.state.step = "CONSENT" ∧
    (turn initialSession
      { prompt := "stop", svcQA := .failure, svcScore := .failure,
        scoreRaises := false, fresh := fun _ => "u" }).state.step = "END" := by
  refine ⟨by decide, rfl, by decide⟩

theorem apply_phone_eq (text : String) (c : Candidate) :
    apply_answer_to_step "INTAKE_PHONE" text c =
      (if 6 ≤ (⟨(pyStrip text).data.filter (fun ch => ch.isDigit || ch == '+')⟩ : String).length ∧
          (startsWithPlus ⟨(pyStrip text).data.filter (fun ch => ch.isDigit || ch == '+')⟩ = true ∨
            pyIsdigit ⟨(pyStrip text).data.filter (fun ch => ch.isDigit || ch == '+')⟩ = true) then
        some { c with phone := some ⟨(pyStrip text).data.filter (fun ch => ch.isDigit || ch == '+')⟩ }
      else none) := rfl

/-- C2 (amended): the phone validator keeps every digit and every `+` sign
of the trimmed input (not only a leading `+`), accepts exactly when the
cleaned result has length at least 6 and starts with `+` or is all digits,
and on acceptance commits exactly the cleaned string — which therefore
consists only of digits and `+` signs, but may contain a non-leading `+`. -/
theorem apply_phone_spec (text : String) (c : Candidate) :
    (apply_answer_to_step "INTAKE_PHONE" text c ≠ none ↔
      (6 ≤ (⟨(pyStrip text).data.filter (fun ch => ch.isDigit || ch == '+')⟩ : String).length ∧
        (startsWithPlus ⟨(pyStrip text).data.filter (fun ch => ch.isDigit || ch == '+')⟩ = true ∨
          pyIsdigit ⟨(pyStrip text).data.filter (fun ch => ch.isDigit || ch == '+')⟩ = true))) ∧
    ∀ c', apply_answer_to_step "INTAKE_PHONE" text c = some c' →
      c'.phone = some ⟨(pyStrip text).data.filter (fun ch => ch.isDigit || ch == '+')⟩ ∧
      ∀ ch ∈ (pyStrip text).data.filter (fun ch => ch.isDigit || ch == '+'),
        ch.isDigit = true ∨ ch = '+' := by
  constructor
  · rw [apply_phone_eq]
    split
    · next hcond => simpa using hcond
    · next hcond => simpa using hcond
  · intro c' h
    rw [apply_phone_eq] at h
    split at h
    · injection h with h'
      subst h'
      refine ⟨rfl, ?_⟩
      intro ch hch
      have hch2 := (List.mem_filter.mp hch).2
      rcases (Bool.or_eq_true _ _).mp hch2 with hd | hp
      · exact Or.inl hd
      · exact Or.inr (eq_of_beq hp)
    · exact Option.noConfusion h

/-- C2 witness: the spec's example `"+1 (234) 567-8901"` is accepted and
commits `"+12345678901"`. -/
theorem apply_phone_spec_witness :
    apply_answer_to_step "INTAKE_PHONE" "+1 (234) 567-8901" defaultCandidate ≠ none ∧
    (apply_answer_to_step "INTAKE_PHONE" "+1 (234) 567-8901" defaultCandidate).map
      (fun c => c.phone) = some (some "+12345678901") :=
  ⟨(apply_phone_spec "+1 (234) 567-8901" defaultCandidate).1.mpr (by decide), by decide⟩

/-- C2 counterexample: `"+1+234567"` is accepted (it starts with `+` and is
long enough) and the committed phone keeps the interior `+`, so the
committed value is not digits with at most one leading `+`. -/
theorem apply_phone_counterexample :
    (apply_answer_to_step "INTAKE_PHONE" "+1+234567" defaultCandidate).map
      (fun c => c.phone) = some (some "+1+234567") ∧
    (("+1+234567" : String).data.drop 1).contains '+' = true := by
  refine ⟨by decide, by decide⟩

end TalentScout
